import Mathlib

/-!
Shallow embedding of the charging decision engine of `ev_smart_charger`
(`custom_components/ev_optimizer/planner.py`,
`custom_components/ev_optimizer/session_manager.py`,
`custom_components/ev_smart_charger/coordinator.py`).

Modelling conventions:
* Wall-clock instants are integers counting minutes (midnight of the current
  day is `now - now % 1440`; Python's `date` flooring agrees with `Int.emod`).
  The SoC estimator, which works at sub-minute granularity, uses rational
  seconds instead.
* Prices, SoC percentages, currents and energies are rationals (the Python
  floats are used as exact decimal quantities by the code).
* `datetime.time` values are minutes after midnight.  Since Python 3.5 a
  `time` object is always truthy, so `a or b` on an optional time reduces to
  `Option.getD`-style selection on `None` only.
* Calendar events are modelled after parsing: an event carries its parsed
  start instant (`none` for a missing or unparseable start, both of which the
  source skips with `continue`) and the first `NN %` number found by the
  regex in its summary/description text (`none` when the regex does not
  match).  Events lacking a start key would make the Python `sorted` call
  raise; the model orders them with key 0.
* Python's `sorted(..., key=price)` is a stable sort, embedded as
  `List.mergeSort` on a `≤` test; `lst[:n]` for an `int` `n` (possibly
  negative) is embedded by `pySlice`.
* `timedelta.seconds / 3600` for a slot `end - start` equals
  `(end - start) / 60` hours for the positive sub-day durations that price
  slots have; the embedding uses that form.
-/

namespace EV

/-- A pricing interval, as built by `parse_price_list`. -/
structure PriceSlot where
  start : Int
  stop : Int
  price : Rat
deriving DecidableEq, Repr

/-- One entry of `plan["charging_schedule"]`. -/
structure SEntry where
  start : Int
  stop : Int
  price : Rat
  active : Bool
deriving DecidableEq, Repr

/-- A calendar event after ISO-date and regex parsing (see module comment). -/
structure CalEvent where
  start : Option Int
  pct : Option Nat
deriving DecidableEq, Repr

/-- The `data` dict as consumed by `generate_charging_plan`: sensor readings
plus user settings (`None` models an absent key; the `get` defaults of the
call sites are applied where the source applies them). -/
structure GenData where
  car_plugged : Bool
  car_soc : Option Rat
  smart_switch : Bool
  price_today : List Rat
  price_tomorrow : List Rat
  tomorrow_valid : Bool
  calendar_events : List CalEvent
  departure_override : Option Int
  departure_time : Option Int
  target_soc : Option Rat
  target_override : Option Rat
  min_soc : Option Rat
  price_limit_1 : Option Rat
  target_soc_1 : Option Rat
  price_limit_2 : Option Rat
  target_soc_2 : Option Rat
deriving DecidableEq, Repr

/-- The `config_settings` dict fields used by the planner. -/
structure ConfigSettings where
  car_capacity : Rat
  charger_loss : Rat
  max_fuse : Rat
deriving DecidableEq, Repr

/-- The plan dict returned by `generate_charging_plan` (the summary strings
are omitted; `none` models an absent key). -/
structure Plan where
  should_charge_now : Bool
  scheduled_start : Option Int
  planned_target_soc : Rat
  charging_schedule : List SEntry
  session_end_time : Option Int
  departure_time : Option Int
  overload_prevention_minutes : Rat
  amps : Option Rat
deriving DecidableEq, Repr

/-- Python `lst[:n]` for an `int` bound `n`: a nonnegative bound takes a
prefix, a negative bound drops `-n` elements from the end. -/
def pySlice {α : Type} (n : Int) (l : List α) : List α :=
  if 0 ≤ n then l.take n.toNat else l.take (l.length - (-n).toNat)

/-- `max((p["end"] for p in prices), default=None)` — the latest slot end. -/
def maxEnd : List PriceSlot → Option Int
  | [] => none
  | s :: rest =>
    match maxEnd rest with
    | none => some s.stop
    | some m => some (max s.stop m)

/-- `min` of a list of instants, `none` when empty (used for
`plan["scheduled_start"]`). -/
def minOpt : List Int → Option Int
  | [] => none
  | x :: rest =>
    match minOpt rest with
    | none => some x
    | some m => some (min x m)

/-- The slot-building loop of `parse_price_list`: entry `i` becomes a slot
starting at `dateRef + i*interval`, skipped when its end is strictly in the
past (`start_dt + interval < now → continue`). -/
def parseFrom (now dateRef interval : Int) : Nat → List Rat → List PriceSlot
  | _, [] => []
  | i, p :: rest =>
    let s := dateRef + (i : Int) * interval
    if s + interval < now then parseFrom now dateRef interval (i + 1) rest
    else ⟨s, s + interval, p⟩ :: parseFrom now dateRef interval (i + 1) rest

/-- `parse_price_list` from `planner.py`: 60-minute slots for arrays of at
most 25 entries, 15-minute slots otherwise, anchored at midnight `dateRef`. -/
def parse_price_list (priceList : List Rat) (dateRef now : Int) : List PriceSlot :=
  if priceList = [] then []
  else parseFrom now dateRef (if priceList.length ≤ 25 then 60 else 15) 0 priceList

/-- Interval length used by `parse_price_list` for a raw array. -/
def intervalOf (priceList : List Rat) : Int :=
  if priceList.length ≤ 25 then 60 else 15

/-- Modelled from the spec: one `PriceSlot` per array entry, anchored at
midnight of the reference date, with no past-slot filtering (the claim's
description of the Price Window Builder before dropping). -/
def mkAllSlots (priceList : List Rat) (dateRef : Int) : List PriceSlot :=
  priceList.enum.map fun ip =>
    ⟨dateRef + (ip.1 : Int) * intervalOf priceList,
     dateRef + (ip.1 : Int) * intervalOf priceList + intervalOf priceList, ip.2⟩

/-- The price list assembled by `generate_charging_plan` lines 229-231:
today's slots, then tomorrow's if the feed marks them valid or they are
non-empty. -/
def buildPrices (d : GenData) (midnight now : Int) : List PriceSlot :=
  parse_price_list d.price_today midnight now ++
    (if d.tomorrow_valid || d.price_tomorrow != [] then
      parse_price_list d.price_tomorrow (midnight + 1440) now
    else [])

/-- The `10 ≤ n ≤ 100` screen applied to the regex match in
`get_calendar_data`. -/
def calEventSoc (e : CalEvent) : Option Rat :=
  match e.pct with
  | some n => if 10 ≤ n ∧ n ≤ 100 then some (n : Rat) else none
  | none => none

/-- The event loop of `get_calendar_data`: skip events without a start or in
the past, stop at the first event beyond the end of tomorrow, otherwise
return its start and screened target percentage. -/
def calLoop (now limit : Int) : List CalEvent → Option Int × Option Rat
  | [] => (none, none)
  | e :: rest =>
    match e.start with
    | none => calLoop now limit rest
    | some s =>
      if s < now then calLoop now limit rest
      else if limit < s then (none, none)
      else (some s, calEventSoc e)

/-- `get_calendar_data` from `planner.py` (ISO parsing abstracted into
`CalEvent`, minute granularity for `time.max`). -/
def get_calendar_data (events : List CalEvent) (now : Int) : Option Int × Option Rat :=
  if events = [] then (none, none)
  else
    calLoop now ((now - now % 1440) + 2879)
      (events.mergeSort fun a b => a.start.getD 0 ≤ b.start.getD 0)

/-- `get_departure_time` from `planner.py`.  The override, when present, is a
`datetime.time` and hence truthy on Python ≥ 3.5 even at midnight, so `or`
falls through only on `None`. -/
def get_departure_time (d : GenData) (now : Int) : Int :=
  let fallback :=
    let timeInput :=
      match d.departure_override with
      | some t => t
      | none => d.departure_time.getD 420
    let dept := (now - now % 1440) + timeInput
    if dept < now then dept + 1440 else dept
  if d.calendar_events ≠ [] then
    match (get_calendar_data d.calendar_events now).1 with
    | some t => t
    | none => fallback
  else fallback

/-- `data.get("car_soc", 0) or 0.0` — an absent, `None` or zero telemetry SoC
becomes `0.0`. -/
def resolveCurrentSoc : Option Rat → Rat
  | none => 0
  | some v => if v = 0 then 0 else v

/-- `min(slot["price"] for slot in calc_window)` on the nonempty window
`w0 :: ws`. -/
def minPriceOf (w0 : PriceSlot) (ws : List PriceSlot) : Rat :=
  (ws.map (·.price)).foldl min w0.price

/-- Target-SoC resolution of `generate_charging_plan` lines 270-302: manual
override, else calendar percentage, else opportunistic raising of the base
target when the window minimum price is under a limit (only with a full
price horizon), finally clamped to at least `min_guaranteed_soc`. -/
def resolveTarget (d : GenData) (manualOverride : Bool) (calSoc : Option Rat)
    (horizonCovers : Bool) (minPrice : Rat) : Rat :=
  let base :=
    if manualOverride then d.target_override.getD 80
    else
      match calSoc with
      | some s => s
      | none =>
        let b := d.target_soc.getD 80
        if horizonCovers then
          if minPrice ≤ d.price_limit_1.getD (1/2) then max b (d.target_soc_1.getD 100)
          else if minPrice ≤ d.price_limit_2.getD (3/2) then max b (d.target_soc_2.getD 80)
          else b
        else b
  max base (d.min_soc.getD 20)

/-- `hours_needed` for a SoC deficit: `kwh_needed / efficiency / est_power`
(lines 343-351). -/
def hoursNeededCalc (cfg : ConfigSettings) (socNeeded : Rat) : Rat :=
  socNeeded / 100 * cfg.car_capacity / (1 - cfg.charger_loss / 100) /
    min (3 * 230 * cfg.max_fuse / 1000) 11

/-- `extra_slots_needed` (lines 314-319): overload-prevention minutes
converted to whole slots, using the slot length inferred from today's raw
array. -/
def extraSlotsNeeded (overloadMin : Rat) (todayLen : Nat) : Int :=
  if 0 < overloadMin then
    ⌈overloadMin / (if 25 < todayLen then (15 : Rat) else 60)⌉
  else 0

/-- `slot_duration_hours` (lines 409-413) with its nonpositive guard. -/
def slotDurationHours (w0 : PriceSlot) : Rat :=
  let h : Rat := ((w0.stop - w0.start : Int) : Rat) / 60
  if h ≤ 0 then 1 else h

/-- The cheapest-first selection (lines 422-423): stable sort by price, then
a Python prefix slice of `slots_needed` slots. -/
def selectCheapest (window : List PriceSlot) (slotsNeeded : Int) : List PriceSlot :=
  pySlice slotsNeeded (window.mergeSort fun a b => a.price ≤ b.price)

/-- The full-schedule rendering (lines 532-552): one entry per price slot
with its `active` flag, plus a zero-duration sentinel repeating the last
end. -/
def scheduleFrom (prices : List PriceSlot) (selStarts : List Int) : List SEntry :=
  let base := prices.map fun s => ⟨s.start, s.stop, s.price, decide (s.start ∈ selStarts)⟩
  match base.getLast? with
  | none => base
  | some last => base ++ [⟨last.stop, last.stop, last.price, false⟩]

/-- `plan["scheduled_start"]` (lines 555-561): earliest selected window slot
strictly in the future. -/
def firstFutureStart (window : List PriceSlot) (selStarts : List Int) (now : Int) : Option Int :=
  minOpt ((window.filter fun s => decide (now < s.start) && decide (s.start ∈ selStarts)).map (·.start))

/-- Whether the slot covering `now` is among the selected starts — the
`should_charge_now` loop of lines 331-338 and 445-451. -/
def coversNowSelected (window : List PriceSlot) (selStarts : List Int) (now : Int) : Bool :=
  window.any fun s => decide (s.start ∈ selStarts) && decide (s.start ≤ now) && decide (now < s.stop)

/-- The common tail of `generate_charging_plan` (lines 532-573): schedule
rendering, scheduled start, unplugged clearing and the `amps` field. -/
def finishPlan (d : GenData) (cfg : ConfigSettings) (now : Int) (planBase : Plan)
    (prices window : List PriceSlot) (selStarts : List Int) (sessionEnd : Option Int)
    (shouldCharge0 : Bool) : Plan :=
  let shouldCharge := shouldCharge0 && d.car_plugged
  { planBase with
    should_charge_now := shouldCharge
    charging_schedule := scheduleFrom prices selStarts
    scheduled_start := firstFutureStart window selStarts now
    session_end_time := sessionEnd
    amps := if shouldCharge then some cfg.max_fuse else none }

/-- The early-return "waiting for more price data" plan (lines 368-407): the
whole schedule rendered inactive, nothing selected. -/
def waitingPlan (planBase : Plan) (prices : List PriceSlot) : Plan :=
  { planBase with
    should_charge_now := false
    charging_schedule := scheduleFrom prices [] }

/-- The maintenance-mode branch (lines 321-341 plus the common tail): every
window slot priced at or below `price_limit_2` is selected. -/
def maintenancePlan (d : GenData) (cfg : ConfigSettings) (now : Int) (plan2 : Plan)
    (prices : List PriceSlot) (w0 : PriceSlot) (ws : List PriceSlot) : Plan :=
  let window := w0 :: ws
  let selStarts :=
    (window.filter fun s => decide (s.price ≤ d.price_limit_2.getD (3/2))).map (·.start)
  finishPlan d cfg now plan2 prices window selStarts none
    (coversNowSelected window selStarts now)

/-- The charging branch for a SoC deficit (lines 342-530 plus the common
tail): possibly the deferred "waiting" early return, otherwise cheapest-slot
selection. -/
def chargingBranch (d : GenData) (cfg : ConfigSettings) (now : Int) (overloadMin : Rat)
    (plan2 : Plan) (prices : List PriceSlot) (deptDt : Int) (hzCovers : Bool)
    (w0 : PriceSlot) (ws : List PriceSlot) (finalTarget currentSoc : Rat) : Plan :=
  let window := w0 :: ws
  let hoursNeeded := hoursNeededCalc cfg (finalTarget - currentSoc)
  if hzCovers = false ∧
      (now : Rat) < (deptDt : Rat) - (hoursNeeded + overloadMin / 60) * 60 then
    waitingPlan plan2 prices
  else
    let slotsNeeded :=
      ⌈hoursNeeded / slotDurationHours w0⌉ + extraSlotsNeeded overloadMin d.price_today.length
    let selected := selectCheapest window slotsNeeded
    let selStarts := selected.map (·.start)
    finishPlan d cfg now plan2 prices window selStarts (maxEnd selected)
      (coversNowSelected window selStarts now)

/-- The body of `generate_charging_plan` once a nonempty calculation window
`w0 :: ws` exists (lines 268-573). -/
def mainPlan (d : GenData) (cfg : ConfigSettings) (manualOverride : Bool)
    (now : Int) (overloadMin : Rat) (plan1 : Plan) (prices : List PriceSlot)
    (deptDt : Int) (hzCovers : Bool) (w0 : PriceSlot) (ws : List PriceSlot) : Plan :=
  let calSoc := (get_calendar_data d.calendar_events now).2
  let finalTarget := resolveTarget d manualOverride calSoc hzCovers (minPriceOf w0 ws)
  let currentSoc := resolveCurrentSoc d.car_soc
  let plan2 := { plan1 with planned_target_soc := finalTarget }
  if finalTarget ≤ currentSoc then
    maintenancePlan d cfg now plan2 prices w0 ws
  else
    chargingBranch d cfg now overloadMin plan2 prices deptDt hzCovers w0 ws
      finalTarget currentSoc

/-- `price_horizon_covers_departure` (lines 254-255). -/
def horizonCovers (prices : List PriceSlot) (deptDt : Int) : Bool :=
  match maxEnd prices with
  | none => false
  | some e => decide (deptDt ≤ e)

/-- The assembled price list of a plan run (`now.date()` midnight is
`now - now % 1440`). -/
def pricesOf (d : GenData) (now : Int) : List PriceSlot :=
  buildPrices d (now - now % 1440) now

/-- `calc_window` (line 242): the price slots starting before departure. -/
def calcWindowOf (d : GenData) (now : Int) : List PriceSlot :=
  (pricesOf d now).filter fun p => decide (p.start < get_departure_time d now)

/-- `price_horizon_covers_departure` for a plan run. -/
def horizonCoversOf (d : GenData) (now : Int) : Bool :=
  horizonCovers (pricesOf d now) (get_departure_time d now)

/-- The resolved target SoC of a plan run whose calculation window is
`w0 :: ws`. -/
def finalTargetOf (d : GenData) (mo : Bool) (now : Int)
    (w0 : PriceSlot) (ws : List PriceSlot) : Rat :=
  resolveTarget d mo (get_calendar_data d.calendar_events now).2
    (horizonCoversOf d now) (minPriceOf w0 ws)

/-- The plan fields accumulated before the window branch (lines 161-241). -/
def plan1Of (d : GenData) (now : Int) (overloadMin : Rat) : Plan :=
  { should_charge_now := false
    scheduled_start := none
    planned_target_soc := d.target_soc.getD 80
    charging_schedule := []
    session_end_time := none
    departure_time := some (get_departure_time d now)
    overload_prevention_minutes := overloadMin
    amps := none }

/-- The plan fields after target resolution (line 303). -/
def plan2Of (d : GenData) (mo : Bool) (now : Int) (overloadMin : Rat)
    (w0 : PriceSlot) (ws : List PriceSlot) : Plan :=
  { plan1Of d now overloadMin with planned_target_soc := finalTargetOf d mo now w0 ws }

/-- `slots_needed` of a plan run (lines 409-420): whole slots for the hours
needed plus overload-compensation slots. -/
def slotsNeededOf (d : GenData) (cfg : ConfigSettings) (mo : Bool) (now : Int)
    (ov : Rat) (w0 : PriceSlot) (ws : List PriceSlot) : Int :=
  ⌈hoursNeededCalc cfg (finalTargetOf d mo now w0 ws - resolveCurrentSoc d.car_soc) /
      slotDurationHours w0⌉ + extraSlotsNeeded ov d.price_today.length

/-- `generate_charging_plan` from `planner.py` (summary strings dropped; the
load-balancing-only and no-future-price early returns all reduce to
"charge iff plugged"). -/
def generate_charging_plan (d : GenData) (cfg : ConfigSettings) (manualOverride : Bool)
    (now : Int) (overloadMin : Rat) : Plan :=
  let plan0 : Plan :=
    { should_charge_now := false
      scheduled_start := none
      planned_target_soc := d.target_soc.getD 80
      charging_schedule := []
      session_end_time := none
      departure_time := none
      overload_prevention_minutes := overloadMin
      amps := none }
  if d.smart_switch = false then { plan0 with should_charge_now := d.car_plugged }
  else if d.price_today = [] then { plan0 with should_charge_now := d.car_plugged }
  else if pricesOf d now = [] then { plan0 with should_charge_now := d.car_plugged }
  else
    match calcWindowOf d now with
    | [] => { plan1Of d now overloadMin with should_charge_now := d.car_plugged }
    | w0 :: ws =>
      mainPlan d cfg manualOverride now overloadMin (plan1Of d now overloadMin)
        (pricesOf d now) (get_departure_time d now) (horizonCoversOf d now) w0 ws

/-- Phase readings consumed by `calculate_load_balancing`. -/
structure LBData where
  p1_l1 : Rat
  p1_l2 : Rat
  p1_l3 : Rat
  ch_l1 : Rat
  ch_l2 : Rat
  ch_l3 : Rat
  zap_limit_value : Rat
deriving DecidableEq, Repr

/-- `calculate_load_balancing` from `planner.py`. -/
def calculate_load_balancing (d : LBData) (maxFuse : Rat) : Rat :=
  let ch :=
    if d.ch_l1 = 0 ∧ d.ch_l2 = 0 ∧ d.ch_l3 = 0 then
      if 0 < d.zap_limit_value then
        (d.zap_limit_value / 3, d.zap_limit_value / 3, d.zap_limit_value / 3)
      else (d.ch_l1, d.ch_l2, d.ch_l3)
    else (d.ch_l1, d.ch_l2, d.ch_l3)
  let house_l1 := max 0 (d.p1_l1 - ch.1)
  let house_l2 := max 0 (d.p1_l2 - ch.2.1)
  let house_l3 := max 0 (d.p1_l3 - ch.2.2)
  let maxHouse := max house_l1 (max house_l2 house_l3)
  let buffer := max 1 (maxFuse * (5/100))
  let available := maxFuse - maxHouse - buffer
  max 0 (min available maxFuse)

/-- One history entry of a charging session (`record_data_point`); `time` is
in seconds, `charging` models the stored 0/1 flag. -/
structure DataPoint where
  time : Rat
  soc : Rat
  amps : Rat
  charging : Bool
  price : Rat
deriving DecidableEq, Repr

/-- The numeric fields of a finalized session report (times, currency,
graph data and log are bookkeeping strings and are omitted). -/
structure SessionReport where
  start_soc : Rat
  end_soc : Rat
  added_kwh : Rat
  total_cost : Rat
  overload_prevention_minutes : Rat
deriving DecidableEq, Repr

/-- Python 3 `round` to an integer: round half to even. -/
def bankersRound (x : Rat) : Int :=
  let f := ⌊x⌋
  if x - f < 1/2 then f
  else if 1/2 < x - f then f + 1
  else if Even f then f else f + 1

/-- Python `round(x, 2)`. -/
def round2 (x : Rat) : Rat :=
  (bankersRound (x * 100) : Rat) / 100

/-- The integration loop of `_calculate_session_totals` (lines 181-195):
for each consecutive pair, the earlier point's amps/charging/price are
integrated over the pair's time delta.  Returns `(total_kwh, total_cost)`. -/
def sessionEnergy : List DataPoint → Rat × Rat
  | [] => (0, 0)
  | [_] => (0, 0)
  | a :: b :: rest =>
    let acc := sessionEnergy (b :: rest)
    if a.charging ∧ 0 < a.amps then
      let kwh := 3 * 230 * a.amps / 1000 * ((b.time - a.time) / 3600)
      (acc.1 + kwh, acc.2 + kwh * a.price)
    else acc

/-- `_calculate_session_totals` from `session_manager.py`.  `none` models the
bare `{}` returned for an empty history; a single-point history yields the
explicit zero-energy report of lines 167-179. -/
def calculate_session_totals (history : List DataPoint) (finalSoc : Option Rat)
    (sessionOverloadMin : Rat) : Option SessionReport :=
  match history with
  | [] => none
  | h0 :: rest =>
    let endSoc :=
      match finalSoc with
      | some v => v
      | none => (((h0 :: rest).getLast?).getD h0).soc
    if (h0 :: rest).length < 2 then
      some ⟨h0.soc, endSoc, 0, 0, sessionOverloadMin⟩
    else
      let acc := sessionEnergy (h0 :: rest)
      some ⟨h0.soc, endSoc, round2 acc.1, round2 acc.2, sessionOverloadMin⟩

/-- The `_last_applied_state` string tag of the coordinator (`None`,
`"charging"` or `"paused"`). -/
inductive AppliedState
  | unset
  | charging
  | paused
deriving DecidableEq, Repr

/-- The coordinator state read and written by `_update_virtual_soc`;
times are rational seconds. -/
structure EstState where
  virtual_soc : Rat
  last_update_time : Rat
  last_applied_state : AppliedState
  last_applied_amps : Rat
  last_applied_car_limit : Rat
  refresh_trigger_timestamp : Option Rat
  soc_before_refresh : Option Rat
deriving DecidableEq, Repr

/-- Sensor fields of the per-cycle `data` dict used by
`_update_virtual_soc`. -/
structure SocInput where
  sensor_soc : Option Rat
  ch_l1 : Rat
  ch_l2 : Rat
  ch_l3 : Rat
deriving DecidableEq, Repr

/-- The forced-refresh trust window (coordinator lines 492-500): a refresh
was triggered less than 5 minutes ago and the telemetry value differs from
its pre-refresh snapshot (Python `float(x) != None` is true, hence a missing
snapshot counts as different). -/
def trustSensorPeriod (st : EstState) (currentTime : Rat) (sensor : Option Rat) : Bool :=
  match st.refresh_trigger_timestamp with
  | none => false
  | some ts =>
    if currentTime - ts < 300 then
      match sensor with
      | none => false
      | some v =>
        match st.soc_before_refresh with
        | none => true
        | some s0 => decide (v ≠ s0)
    else false

/-- The sync step of `_update_virtual_soc` (coordinator lines 502-508):
adopt the telemetry value when it is higher, the estimator is
uninitialized, or the trust window applies. -/
def syncStep (st : EstState) (currentTime : Rat) (inp : SocInput) : Rat :=
  match inp.sensor_soc with
  | none => st.virtual_soc
  | some v =>
    if st.virtual_soc < v ∨ st.virtual_soc = 0 ∨
        trustSensorPeriod st currentTime inp.sensor_soc = true then v
    else st.virtual_soc

/-- The charger current used by the estimate step (coordinator lines
513-521): the measured maximum phase current when above 0.5 A, else the
last commanded amps. -/
def usedAmps (st : EstState) (inp : SocInput) : Rat :=
  let measured := max inp.ch_l1 (max inp.ch_l2 inp.ch_l3)
  if (1/2 : Rat) < measured then measured else st.last_applied_amps

/-- The clamping of the new estimate (coordinator lines 545-552): cap at
the positive last-applied car limit, then at 100. -/
def clampLimits (st : EstState) (va : Rat) : Rat :=
  let vb :=
    if 0 < st.last_applied_car_limit ∧ st.last_applied_car_limit < va then
      st.last_applied_car_limit
    else va
  if 100 < vb then 100 else vb

/-- The estimate step of `_update_virtual_soc` (coordinator lines 510-552):
integrate charging power over the elapsed time, clamped to the positive
last-applied car limit and to 100. -/
def estimateStep (st : EstState) (currentTime : Rat) (inp : SocInput)
    (chargerLoss capacity v1 : Rat) : Rat :=
  if st.last_applied_state = AppliedState.charging then
    if 0 < usedAmps st inp then
      if 0 < capacity then
        clampLimits st
          (v1 + 3 * 230 * usedAmps st inp / 1000 *
            ((currentTime - st.last_update_time) / 3600) * (1 - chargerLoss / 100) /
            capacity * 100)
      else v1
    else v1
  else v1

/-- `_update_virtual_soc` from `coordinator.py` lines 482-554: telemetry
sync, then energy integration while charging, clamped to the last applied
car limit and to 100. -/
def update_virtual_soc (st : EstState) (currentTime : Rat) (inp : SocInput)
    (chargerLoss capacity : Rat) : EstState :=
  { st with
    virtual_soc :=
      estimateStep st currentTime inp chargerLoss capacity (syncStep st currentTime inp)
    last_update_time := currentTime }

/-- Modelled from the spec wording for the Load Balancer: house phase
`= max(0, grid − charger)` with the one-third limiter fallback,
`buffer = max(1A, 5% of max_fuse)`, result
`max(0, min(max_fuse, max_fuse − max_house − buffer))`. -/
def load_balancing_claim (d : LBData) (mf : Rat) : Rat :=
  let ch :=
    if d.ch_l1 = 0 ∧ d.ch_l2 = 0 ∧ d.ch_l3 = 0 ∧ 0 < d.zap_limit_value then
      (d.zap_limit_value / 3, d.zap_limit_value / 3, d.zap_limit_value / 3)
    else (d.ch_l1, d.ch_l2, d.ch_l3)
  let house1 := max 0 (d.p1_l1 - ch.1)
  let house2 := max 0 (d.p1_l2 - ch.2.1)
  let house3 := max 0 (d.p1_l3 - ch.2.2)
  let buffer := max 1 (mf * (5/100))
  max 0 (min mf (mf - max house1 (max house2 house3) - buffer))

/-- `datetime.combine(now.date(), t)` rolled forward by one day when already
past — the fallback arithmetic of `get_departure_time`. -/
def combineRoll (now t : Int) : Int :=
  let x := (now - now % 1440) + t
  if x < now then x + 1440 else x

/-- A concrete well-formed planner input used by the closed witness and
counterexample theorems: four hourly prices with a cheap third hour,
departure at 04:00, SoC 30%, target 80%. -/
def baseData : GenData where
  car_plugged := true
  car_soc := some 30
  smart_switch := true
  price_today := [2, 2, 0, 2]
  price_tomorrow := []
  tomorrow_valid := false
  calendar_events := []
  departure_override := none
  departure_time := some 240
  target_soc := some 80
  target_override := none
  min_soc := some 20
  price_limit_1 := some (1/2)
  target_soc_1 := some 100
  price_limit_2 := some (3/2)
  target_soc_2 := some 80

/-- A concrete configuration: 11 kWh battery, no charger loss, 20 A fuse. -/
def cfgW : ConfigSettings := ⟨11, 0, 20⟩

/-- Planner input with a midnight departure override set. -/
def dMidnight : GenData :=
  { baseData with departure_override := some 0, departure_time := some 420 }

/-- C4: `calculate_load_balancing` returns
`max(0, min(max_fuse, max_fuse − max_house_current − buffer))` with
`buffer = max(1, 5% of max_fuse)`, house phases `max(0, grid − charger)` and
the one-third limiter fallback when all charger readings are zero; the
result lies in `[0, max_fuse]`, and phases `[5,5,5]`, charger `[0,0,0]`,
limiter 16, fuse 20 give 19. -/
theorem claim_C4_load_balancing (d : LBData) (mf : Rat) (hmf : 0 ≤ mf) :
    calculate_load_balancing d mf = load_balancing_claim d mf ∧
    0 ≤ calculate_load_balancing d mf ∧
    calculate_load_balancing d mf ≤ mf ∧
    calculate_load_balancing ⟨5, 5, 5, 0, 0, 0, 16⟩ 20 = 19 := by
  have hshape : ∃ x, calculate_load_balancing d mf = max 0 (min x mf) := ⟨_, rfl⟩
  obtain ⟨x, hx⟩ := hshape
  refine ⟨?_, ?_, ?_, by norm_num [calculate_load_balancing]⟩
  · unfold calculate_load_balancing load_balancing_claim
    by_cases h0 : d.ch_l1 = 0 ∧ d.ch_l2 = 0 ∧ d.ch_l3 = 0
    · obtain ⟨h1, h2, h3⟩ := h0
      by_cases hz : 0 < d.zap_limit_value
      · rw [h1, h2, h3]
        simp [hz, min_comm]
      · rw [h1, h2, h3]
        simp [hz, min_comm]
    · have h4 : ¬(d.ch_l1 = 0 ∧ d.ch_l2 = 0 ∧ d.ch_l3 = 0 ∧ 0 < d.zap_limit_value) :=
        fun hh => h0 ⟨hh.1, hh.2.1, hh.2.2.1⟩
      rw [if_neg h0, if_neg h4]
      simp [min_comm]
  · rw [hx]
    exact le_max_left 0 _
  · rw [hx]
    exact max_le hmf (min_le_right x mf)

/-- C4 witness: the load-balancing facts evaluated at the concrete Scenario
C input (fuse 20 A). -/
theorem claim_C4_witness :
    calculate_load_balancing ⟨5, 5, 5, 0, 0, 0, 16⟩ 20 =
      load_balancing_claim ⟨5, 5, 5, 0, 0, 0, 16⟩ 20 ∧
    0 ≤ calculate_load_balancing ⟨5, 5, 5, 0, 0, 0, 16⟩ 20 ∧
    calculate_load_balancing ⟨5, 5, 5, 0, 0, 0, 16⟩ 20 ≤ 20 ∧
    calculate_load_balancing ⟨5, 5, 5, 0, 0, 0, 16⟩ 20 = 19 :=
  claim_C4_load_balancing ⟨5, 5, 5, 0, 0, 0, 16⟩ 20 (by norm_num)

/-- C7 counterexample: a session history with zero points (fewer than two)
is finalized to the bare `{}` — no report carrying `added_kwh == 0.0` is
produced, contrary to the claim's "for every session whose history contains
fewer than two data points". -/
theorem claim_C7_counterexample :
    calculate_session_totals [] none 0 = none ∧
    ([] : List DataPoint).length < 2 :=
  ⟨rfl, by decide⟩

/-- C7 amended: finalizing a session whose history has exactly one data
point does not fail and produces a zero-energy report
(`added_kwh = 0`, `total_cost = 0`); an empty history instead yields the
bare `{}`. -/
theorem claim_C7_single_point (h : List DataPoint) (fs : Option Rat) (ov : Rat)
    (hh : h.length = 1) :
    ∃ r, calculate_session_totals h fs ov = some r ∧
      r.added_kwh = 0 ∧ r.total_cost = 0 := by
  match h, hh with
  | [p], _ => cases fs <;> exact ⟨_, rfl, rfl, rfl⟩

/-- C7 witness: a concrete one-point session finalizes to a zero-energy
report. -/
theorem claim_C7_witness :
    ∃ r, calculate_session_totals [⟨0, 50, 16, true, 1⟩] none 2 = some r ∧
      r.added_kwh = 0 ∧ r.total_cost = 0 :=
  claim_C7_single_point _ none 2 rfl

/-- C10 counterexample: with a midnight (00:00) departure override and a
07:00 standard departure time, at 10:00 the code schedules departure for
next midnight (minute 1440), not for the 07:00 fallback (minute 1860) the
claim predicts — `datetime.time(0, 0)` is truthy on Python ≥ 3.5, so the
override is not ignored. -/
theorem claim_C10_counterexample :
    get_departure_time dMidnight 600 = 1440 ∧
    (1440 : Int) ≠ 1860 ∧
    get_departure_time { dMidnight with departure_override := none } 600 = 1860 := by
  refine ⟨by decide, by decide, by decide⟩

/-- C10 amended: with no calendar events, `get_departure_time` uses the
departure override whenever it is set — midnight included — combining it
with today's date and rolling one day forward if already past; only an
absent (`None`) override falls back to the standard departure time
(default 07:00). -/
theorem claim_C10_departure (d : GenData) (now : Int) (hcal : d.calendar_events = []) :
    (∀ t, d.departure_override = some t →
      get_departure_time d now = combineRoll now t) ∧
    (d.departure_override = none →
      get_departure_time d now = combineRoll now (d.departure_time.getD 420)) := by
  constructor
  · intro t h
    simp [get_departure_time, hcal, combineRoll, h]
  · intro h
    simp [get_departure_time, hcal, combineRoll, h]

/-- C10 witness: the amended rule evaluated on the concrete midnight
override input. -/
theorem claim_C10_witness :
    get_departure_time dMidnight 600 = combineRoll 600 0 :=
  (claim_C10_departure dMidnight 600 rfl).1 0 rfl

lemma syncStep_ge (st : EstState) (t : Rat) (inp : SocInput)
    (hsens : ∀ v, inp.sensor_soc = some v → 0 ≤ v)
    (htrust : trustSensorPeriod st t inp.sensor_soc = false) :
    st.virtual_soc ≤ syncStep st t inp := by
  unfold syncStep
  split
  · exact le_refl _
  · rename_i v hs
    by_cases hc : st.virtual_soc < v ∨ st.virtual_soc = 0 ∨
        trustSensorPeriod st t inp.sensor_soc = true
    · rw [if_pos hc]
      rcases hc with h | h | h
      · exact le_of_lt h
      · rw [h]
        exact hsens v hs
      · rw [htrust] at h
        cases h
    · rw [if_neg hc]

lemma clampLimits_ge (st : EstState) (va : Rat)
    (hpre : st.virtual_soc ≤ 100)
    (hva : st.virtual_soc ≤ va)
    (hlim : st.last_applied_car_limit ≤ 0 ∨
      st.virtual_soc ≤ st.last_applied_car_limit) :
    st.virtual_soc ≤ clampLimits st va := by
  unfold clampLimits
  by_cases hc : 0 < st.last_applied_car_limit ∧ st.last_applied_car_limit < va
  · rw [if_pos hc]
    by_cases h100 : 100 < st.last_applied_car_limit
    · rw [if_pos h100]
      exact hpre
    · rw [if_neg h100]
      rcases hlim with h | h
      · exact absurd hc.1 (not_lt.mpr h)
      · exact h
  · rw [if_neg hc]
    by_cases h100 : 100 < va
    · rw [if_pos h100]
      exact hpre
    · rw [if_neg h100]
      exact hva

lemma estimateStep_ge (st : EstState) (t : Rat) (inp : SocInput) (loss cap v1 : Rat)
    (hv1 : st.virtual_soc ≤ v1)
    (hpre : st.virtual_soc ≤ 100)
    (hloss : loss ≤ 100)
    (ht : st.last_update_time ≤ t)
    (hlim : st.last_applied_car_limit ≤ 0 ∨
      st.virtual_soc ≤ st.last_applied_car_limit) :
    st.virtual_soc ≤ estimateStep st t inp loss cap v1 := by
  unfold estimateStep
  split_ifs with h1 h2 h3
  · refine clampLimits_ge st _ hpre ?_ hlim
    have hh : (0 : Rat) ≤ (t - st.last_update_time) / 3600 :=
      div_nonneg (by linarith) (by norm_num)
    have he : (0 : Rat) ≤ 1 - loss / 100 := by linarith
    have hk : (0 : Rat) ≤ 3 * 230 * usedAmps st inp / 1000 *
        ((t - st.last_update_time) / 3600) * (1 - loss / 100) :=
      mul_nonneg (mul_nonneg (div_nonneg (by linarith) (by norm_num)) hh) he
    have hadd : (0 : Rat) ≤ 3 * 230 * usedAmps st inp / 1000 *
        ((t - st.last_update_time) / 3600) * (1 - loss / 100) / cap * 100 :=
      mul_nonneg (div_nonneg hk (le_of_lt h3)) (by norm_num)
    linarith
  · exact hv1
  · exact hv1
  · exact hv1

/-- C5 counterexample: while charging with a positive last-applied car
limit of 80 below the current estimate of 90, a single estimator step with
no trust window active (no refresh ever triggered, no telemetry) clamps the
virtual SoC down from 90 to 80 — a decrease that is not an explicit
resync. -/
theorem claim_C5_counterexample :
    (update_virtual_soc ⟨90, 0, .charging, 16, 80, none, none⟩ 3600
        ⟨none, 16, 16, 16⟩ 10 75).virtual_soc = 80 ∧
    trustSensorPeriod ⟨90, 0, .charging, 16, 80, none, none⟩ 3600 none = false ∧
    (update_virtual_soc ⟨90, 0, .charging, 16, 80, none, none⟩ 3600
        ⟨none, 16, 16, 16⟩ 10 75).virtual_soc < 90 := by
  have h : (update_virtual_soc ⟨90, 0, .charging, 16, 80, none, none⟩ 3600
      ⟨none, 16, 16, 16⟩ 10 75).virtual_soc = 80 := by
    norm_num [update_virtual_soc, syncStep, estimateStep, usedAmps, clampLimits,
      trustSensorPeriod]
  exact ⟨h, rfl, by rw [h]; norm_num⟩

/-- C5 amended: while `last_applied_state == charging`, a single estimator
step never lowers the virtual SoC — given physical inputs (nonnegative
telemetry, charger loss at most 100%, time moving forward, estimate at most
100) — except in an explicit resync (forced-refresh trust window active and
telemetry changed), or when the estimate is clamped down to a positive
last-applied car-side charge limit lying below it. -/
theorem claim_C5_monotone (st : EstState) (t : Rat) (inp : SocInput) (loss cap : Rat)
    (hch : st.last_applied_state = AppliedState.charging)
    (hsens : ∀ v, inp.sensor_soc = some v → 0 ≤ v)
    (hpre : st.virtual_soc ≤ 100)
    (hloss : loss ≤ 100)
    (ht : st.last_update_time ≤ t)
    (htrust : trustSensorPeriod st t inp.sensor_soc = false)
    (hlim : st.last_applied_car_limit ≤ 0 ∨
      st.virtual_soc ≤ st.last_applied_car_limit) :
    st.virtual_soc ≤ (update_virtual_soc st t inp loss cap).virtual_soc :=
  estimateStep_ge st t inp loss cap _ (syncStep_ge st t inp hsens htrust) hpre hloss ht hlim

/-- C5 witness: a concrete charging step (estimate 50, car limit 80) does
not decrease the virtual SoC. -/
theorem claim_C5_witness :
    (⟨50, 0, .charging, 16, 80, none, none⟩ : EstState).virtual_soc ≤
      (update_virtual_soc ⟨50, 0, .charging, 16, 80, none, none⟩ 30
        ⟨none, 16, 16, 16⟩ 10 64).virtual_soc :=
  claim_C5_monotone _ _ _ _ _ rfl (fun v hv => by cases hv) (by norm_num)
    (by norm_num) (by norm_num) rfl (Or.inr (by norm_num))

lemma parseFrom_eq (now dateRef interval : Int) (l : List Rat) :
    ∀ i, parseFrom now dateRef interval i l =
      ((List.enumFrom i l).map fun ip =>
        (⟨dateRef + (ip.1 : Int) * interval,
          dateRef + (ip.1 : Int) * interval + interval, ip.2⟩ : PriceSlot)).filter
        fun s => !decide (s.stop < now) := by
  induction l with
  | nil =>
    intro i
    simp [parseFrom]
  | cons p rest ih =>
    intro i
    by_cases hc : dateRef + (i : Int) * interval + interval < now
    · simp [parseFrom, hc, ih (i + 1), List.enumFrom_cons]
    · simp [parseFrom, hc, ih (i + 1), List.enumFrom_cons]

/-- C8: the Price Window Builder uses 60-minute slots for arrays of at most
25 entries and 15-minute slots otherwise, builds one slot per entry
anchored at midnight of the reference date, drops exactly the slots whose
end is strictly before `now`, and appends tomorrow's slots iff the feed
marks them valid or they are non-empty. -/
theorem claim_C8_price_window (l : List Rat) (dref now : Int) (d : GenData) (mid : Int) :
    parse_price_list l dref now =
      (mkAllSlots l dref).filter (fun s => !decide (s.stop < now)) ∧
    (mkAllSlots l dref).length = l.length ∧
    (∀ (i : Nat) (p : Rat), l[i]? = some p → (mkAllSlots l dref)[i]? =
      some (⟨dref + (i : Int) * intervalOf l,
        dref + (i : Int) * intervalOf l + intervalOf l, p⟩ : PriceSlot)) ∧
    (l.length ≤ 25 → intervalOf l = 60) ∧
    (25 < l.length → intervalOf l = 15) ∧
    (d.tomorrow_valid = false ∧ d.price_tomorrow = [] →
      buildPrices d mid now = parse_price_list d.price_today mid now) ∧
    (d.tomorrow_valid = true ∨ d.price_tomorrow ≠ [] →
      buildPrices d mid now =
        parse_price_list d.price_today mid now ++
          parse_price_list d.price_tomorrow (mid + 1440) now) := by
  refine ⟨?_, ?_, ?_, ?_, ?_, ?_, ?_⟩
  · by_cases hl : l = []
    · subst hl
      simp [parse_price_list, mkAllSlots]
    · rw [parse_price_list, if_neg hl]
      rw [parseFrom_eq now dref _ l 0]
      simp [mkAllSlots, intervalOf, List.enum]
  · simp [mkAllSlots]
  · intro i p hp
    simp [mkAllSlots, List.getElem?_map, List.getElem?_enum, hp]
  · intro h
    simp [intervalOf, h]
  · intro h
    simp [intervalOf, Nat.not_le.mpr h]
  · rintro ⟨hv, he⟩
    simp [buildPrices, hv, he]
  · intro h
    rcases h with h | h
    · simp [buildPrices, h]
    · have : d.price_tomorrow != [] := by simp [h]
      simp [buildPrices, this]

/-- C8 witness: the builder evaluated on a concrete two-entry array and the
concrete no-tomorrow input. -/
theorem claim_C8_witness :
    parse_price_list [1, 2] 0 100 =
      (mkAllSlots [1, 2] 0).filter (fun s => !decide (s.stop < 100)) ∧
    (mkAllSlots [1, 2] 0)[0]? =
      some ⟨0 + (0 : Int) * intervalOf [1, 2],
        0 + (0 : Int) * intervalOf [1, 2] + intervalOf [1, 2], 1⟩ ∧
    buildPrices baseData 0 100 = parse_price_list baseData.price_today 0 100 := by
  have h := claim_C8_price_window [1, 2] 0 100 baseData 0
  exact ⟨h.1, h.2.2.1 0 1 rfl, h.2.2.2.2.2.1 ⟨rfl, rfl⟩⟩

lemma gcp_eq_mainPlan (d : GenData) (cfg : ConfigSettings) (mo : Bool) (now : Int)
    (ov : Rat) (hsw : d.smart_switch = true) (ht : d.price_today ≠ [])
    (w0 : PriceSlot) (ws : List PriceSlot) (hw : calcWindowOf d now = w0 :: ws) :
    generate_charging_plan d cfg mo now ov =
      mainPlan d cfg mo now ov (plan1Of d now ov) (pricesOf d now)
        (get_departure_time d now) (horizonCoversOf d now) w0 ws := by
  have hp : ¬(pricesOf d now = []) := by
    intro h
    rw [calcWindowOf, h] at hw
    simp at hw
  have hsw' : ¬(d.smart_switch = false) := by
    rw [hsw]
    simp
  unfold generate_charging_plan
  rw [if_neg hsw', if_neg ht, if_neg hp, hw]

lemma mainPlan_eq_maintenance (d : GenData) (cfg : ConfigSettings) (mo : Bool)
    (now : Int) (ov : Rat) (w0 : PriceSlot) (ws : List PriceSlot)
    (hm : finalTargetOf d mo now w0 ws ≤ resolveCurrentSoc d.car_soc) :
    mainPlan d cfg mo now ov (plan1Of d now ov) (pricesOf d now)
        (get_departure_time d now) (horizonCoversOf d now) w0 ws =
      maintenancePlan d cfg now (plan2Of d mo now ov w0 ws) (pricesOf d now) w0 ws := by
  unfold finalTargetOf at hm
  simp only [mainPlan, if_pos hm]
  rfl

lemma mainPlan_eq_charging (d : GenData) (cfg : ConfigSettings) (mo : Bool)
    (now : Int) (ov : Rat) (w0 : PriceSlot) (ws : List PriceSlot)
    (hm : resolveCurrentSoc d.car_soc < finalTargetOf d mo now w0 ws) :
    mainPlan d cfg mo now ov (plan1Of d now ov) (pricesOf d now)
        (get_departure_time d now) (horizonCoversOf d now) w0 ws =
      chargingBranch d cfg now ov (plan2Of d mo now ov w0 ws) (pricesOf d now)
        (get_departure_time d now) (horizonCoversOf d now) w0 ws
        (finalTargetOf d mo now w0 ws) (resolveCurrentSoc d.car_soc) := by
  have hm' : ¬(finalTargetOf d mo now w0 ws ≤ resolveCurrentSoc d.car_soc) :=
    not_le.mpr hm
  unfold finalTargetOf at hm'
  simp only [mainPlan, if_neg hm']
  rfl

lemma finishPlan_planned (d : GenData) (cfg : ConfigSettings) (now : Int)
    (pb : Plan) (prices window : List PriceSlot) (sel : List Int)
    (se : Option Int) (sc : Bool) :
    (finishPlan d cfg now pb prices window sel se sc).planned_target_soc =
      pb.planned_target_soc := rfl

lemma chargingBranch_planned (d : GenData) (cfg : ConfigSettings) (now : Int)
    (ov : Rat) (pb : Plan) (prices : List PriceSlot) (dept : Int) (hz : Bool)
    (w0 : PriceSlot) (ws : List PriceSlot) (ft cs : Rat) :
    (chargingBranch d cfg now ov pb prices dept hz w0 ws ft cs).planned_target_soc =
      pb.planned_target_soc := by
  simp only [chargingBranch]
  split_ifs
  · rfl
  · rfl

lemma gcp_planned_eq_target (d : GenData) (cfg : ConfigSettings) (mo : Bool)
    (now : Int) (ov : Rat) (hsw : d.smart_switch = true) (ht : d.price_today ≠ [])
    (w0 : PriceSlot) (ws : List PriceSlot) (hw : calcWindowOf d now = w0 :: ws) :
    (generate_charging_plan d cfg mo now ov).planned_target_soc =
      finalTargetOf d mo now w0 ws := by
  rw [gcp_eq_mainPlan d cfg mo now ov hsw ht w0 ws hw]
  by_cases hm : finalTargetOf d mo now w0 ws ≤ resolveCurrentSoc d.car_soc
  · rw [mainPlan_eq_maintenance d cfg mo now ov w0 ws hm]
    rfl
  · rw [mainPlan_eq_charging d cfg mo now ov w0 ws (not_le.mp hm)]
    rw [chargingBranch_planned]
    rfl

lemma calLoop_soc_bounds (now limit : Int) (evs : List CalEvent) :
    ∀ s, (calLoop now limit evs).2 = some s → 10 ≤ s ∧ s ≤ 100 := by
  induction evs with
  | nil =>
    intro s h
    simp [calLoop] at h
  | cons e rest ih =>
    intro s h
    unfold calLoop at h
    cases he : e.start with
    | none =>
      rw [he] at h
      exact ih s h
    | some t =>
      rw [he] at h
      dsimp only at h
      by_cases h1 : t < now
      · rw [if_pos h1] at h
        exact ih s h
      · rw [if_neg h1] at h
        by_cases h2 : limit < t
        · rw [if_pos h2] at h
          simp at h
        · rw [if_neg h2] at h
          simp only at h
          unfold calEventSoc at h
          cases hp : e.pct with
          | none =>
            rw [hp] at h
            simp at h
          | some n =>
            rw [hp] at h
            dsimp only at h
            by_cases h3 : 10 ≤ n ∧ n ≤ 100
            · rw [if_pos h3] at h
              simp at h
              subst h
              exact ⟨by exact_mod_cast h3.1, by exact_mod_cast h3.2⟩
            · rw [if_neg h3] at h
              simp at h

lemma calendar_soc_bounds (events : List CalEvent) (now : Int) :
    ∀ s, (get_calendar_data events now).2 = some s → 10 ≤ s ∧ s ≤ 100 := by
  intro s h
  unfold get_calendar_data at h
  by_cases he : events = []
  · rw [if_pos he] at h
    simp at h
  · rw [if_neg he] at h
    exact calLoop_soc_bounds _ _ _ s h

lemma resolveTarget_le_100 (d : GenData) (mo : Bool) (calSoc : Option Rat)
    (hz : Bool) (mp : Rat)
    (h80 : d.target_soc.getD 80 ≤ 100) (hov : d.target_override.getD 80 ≤ 100)
    (h1 : d.target_soc_1.getD 100 ≤ 100) (h2 : d.target_soc_2.getD 80 ≤ 100)
    (hmin : d.min_soc.getD 20 ≤ 100)
    (hcal : ∀ s, calSoc = some s → s ≤ 100) :
    resolveTarget d mo calSoc hz mp ≤ 100 := by
  unfold resolveTarget
  refine max_le ?_ hmin
  by_cases hmo : mo
  · simp only [if_pos hmo]
    exact hov
  · simp only [if_neg hmo]
    cases hc : calSoc with
    | some s => exact hcal s hc
    | none =>
      by_cases hhz : hz = true
      · simp only [hhz, if_pos trivial]
        split_ifs
        · exact max_le h80 h1
        · exact max_le h80 h2
        · exact h80
      · have : hz = false := by
          cases hz
          · rfl
          · exact absurd rfl hhz
        simp only [this]
        simp
        exact h80

/-- C3: every target resolution (manual override, calendar event,
opportunistic pricing or base target) yields
`min_guaranteed_soc ≤ planned_target_soc ≤ 100`, given settings within
their UI-enforced 0-100 ranges. -/
theorem claim_C3_target_bounds (d : GenData) (cfg : ConfigSettings) (mo : Bool)
    (now : Int) (ov : Rat) (hsw : d.smart_switch = true) (ht : d.price_today ≠ [])
    (w0 : PriceSlot) (ws : List PriceSlot) (hw : calcWindowOf d now = w0 :: ws)
    (h80 : d.target_soc.getD 80 ≤ 100) (hov : d.target_override.getD 80 ≤ 100)
    (h1 : d.target_soc_1.getD 100 ≤ 100) (h2 : d.target_soc_2.getD 80 ≤ 100)
    (hmin : d.min_soc.getD 20 ≤ 100) :
    d.min_soc.getD 20 ≤ (generate_charging_plan d cfg mo now ov).planned_target_soc ∧
    (generate_charging_plan d cfg mo now ov).planned_target_soc ≤ 100 := by
  rw [gcp_planned_eq_target d cfg mo now ov hsw ht w0 ws hw]
  constructor
  · exact le_max_right _ _
  · exact resolveTarget_le_100 d mo _ _ _ h80 hov h1 h2 hmin
      (fun s hs => (calendar_soc_bounds d.calendar_events now s hs).2)

/-- C3 witness: the bounds evaluated on the concrete planner input. -/
theorem claim_C3_witness :
    baseData.min_soc.getD 20 ≤
      (generate_charging_plan baseData cfgW false 30 0).planned_target_soc ∧
    (generate_charging_plan baseData cfgW false 30 0).planned_target_soc ≤ 100 :=
  claim_C3_target_bounds baseData cfgW false 30 0 rfl (by decide)
    ⟨0, 60, 2⟩ [⟨60, 120, 2⟩, ⟨120, 180, 0⟩, ⟨180, 240, 2⟩] (by decide)
    (by norm_num [baseData]) (by norm_num [baseData]) (by norm_num [baseData])
    (by norm_num [baseData]) (by norm_num [baseData])

/-- C9: when `car_soc` is absent, `None` or `0`, the planner computes with
`current_soc = 0.0`: with the UI-enforced positive `min_guaranteed_soc` it
never enters maintenance mode and takes the charging branch with the full
deficit from 0% to the resolved target. -/
theorem claim_C9_missing_soc (d : GenData) (cfg : ConfigSettings) (mo : Bool)
    (now : Int) (ov : Rat) (hsw : d.smart_switch = true) (ht : d.price_today ≠ [])
    (w0 : PriceSlot) (ws : List PriceSlot) (hw : calcWindowOf d now = w0 :: ws)
    (hsoc : d.car_soc = none ∨ d.car_soc = some 0)
    (hmin : 0 < d.min_soc.getD 20) :
    resolveCurrentSoc d.car_soc = 0 ∧
    0 < finalTargetOf d mo now w0 ws ∧
    generate_charging_plan d cfg mo now ov =
      chargingBranch d cfg now ov (plan2Of d mo now ov w0 ws) (pricesOf d now)
        (get_departure_time d now) (horizonCoversOf d now) w0 ws
        (finalTargetOf d mo now w0 ws) 0 := by
  have h0 : resolveCurrentSoc d.car_soc = 0 := by
    rcases hsoc with h | h
    · rw [h]
      rfl
    · rw [h]
      simp [resolveCurrentSoc]
  have hle : d.min_soc.getD 20 ≤ finalTargetOf d mo now w0 ws := by
    unfold finalTargetOf resolveTarget
    exact le_max_right _ _
  have hT : 0 < finalTargetOf d mo now w0 ws := lt_of_lt_of_le hmin hle
  refine ⟨h0, hT, ?_⟩
  rw [gcp_eq_mainPlan d cfg mo now ov hsw ht w0 ws hw]
  rw [mainPlan_eq_charging d cfg mo now ov w0 ws (by rw [h0]; exact hT)]
  rw [h0]

/-- C9 witness: the concrete input with `car_soc = None` takes the charging
branch from 0%. -/
theorem claim_C9_witness :
    resolveCurrentSoc ({ baseData with car_soc := none } : GenData).car_soc = 0 ∧
    0 < finalTargetOf { baseData with car_soc := none } false 30 ⟨0, 60, 2⟩
      [⟨60, 120, 2⟩, ⟨120, 180, 0⟩, ⟨180, 240, 2⟩] ∧
    generate_charging_plan { baseData with car_soc := none } cfgW false 30 0 =
      chargingBranch { baseData with car_soc := none } cfgW 30 0
        (plan2Of { baseData with car_soc := none } false 30 0 ⟨0, 60, 2⟩
          [⟨60, 120, 2⟩, ⟨120, 180, 0⟩, ⟨180, 240, 2⟩])
        (pricesOf { baseData with car_soc := none } 30)
        (get_departure_time { baseData with car_soc := none } 30)
        (horizonCoversOf { baseData with car_soc := none } 30)
        ⟨0, 60, 2⟩ [⟨60, 120, 2⟩, ⟨120, 180, 0⟩, ⟨180, 240, 2⟩]
        (finalTargetOf { baseData with car_soc := none } false 30 ⟨0, 60, 2⟩
          [⟨60, 120, 2⟩, ⟨120, 180, 0⟩, ⟨180, 240, 2⟩]) 0 :=
  claim_C9_missing_soc { baseData with car_soc := none } cfgW false 30 0 rfl
    (by decide) _ _ (by decide) (Or.inl rfl) (by norm_num [baseData])

lemma scheduleFrom_nil_inactive (prices : List PriceSlot) :
    ∀ e ∈ scheduleFrom prices [], e.active = false := by
  intro e he
  simp only [scheduleFrom] at he
  split at he
  · obtain ⟨s, hs, rfl⟩ := List.mem_map.mp he
    simp
  · rcases List.mem_append.mp he with h | h
    · obtain ⟨s, hs, rfl⟩ := List.mem_map.mp h
      simp
    · simp only [List.mem_singleton] at h
      subst h
      rfl

/-- C2: when the current SoC is below the resolved target, the price
horizon ends before departure, and `now` is earlier than
`departure − (hours_needed + overload/60)` hours, the plan is a deferred
"waiting for more price data" plan: `should_charge_now` is false, every
schedule entry is inactive, and no start is scheduled. -/
theorem claim_C2_deferred (d : GenData) (cfg : ConfigSettings) (mo : Bool)
    (now : Int) (ov : Rat) (hsw : d.smart_switch = true) (ht : d.price_today ≠ [])
    (w0 : PriceSlot) (ws : List PriceSlot) (hw : calcWindowOf d now = w0 :: ws)
    (hcur : resolveCurrentSoc d.car_soc < finalTargetOf d mo now w0 ws)
    (hhz : horizonCoversOf d now = false)
    (hlate : (now : Rat) < (get_departure_time d now : Rat) -
      (hoursNeededCalc cfg
          (finalTargetOf d mo now w0 ws - resolveCurrentSoc d.car_soc) + ov / 60) * 60) :
    (generate_charging_plan d cfg mo now ov).should_charge_now = false ∧
    (∀ e ∈ (generate_charging_plan d cfg mo now ov).charging_schedule,
      e.active = false) ∧
    (generate_charging_plan d cfg mo now ov).scheduled_start = none := by
  rw [gcp_eq_mainPlan d cfg mo now ov hsw ht w0 ws hw]
  rw [mainPlan_eq_charging d cfg mo now ov w0 ws hcur]
  have hwait : chargingBranch d cfg now ov (plan2Of d mo now ov w0 ws) (pricesOf d now)
      (get_departure_time d now) (horizonCoversOf d now) w0 ws
      (finalTargetOf d mo now w0 ws) (resolveCurrentSoc d.car_soc) =
      waitingPlan (plan2Of d mo now ov w0 ws) (pricesOf d now) := by
    simp only [chargingBranch]
    rw [if_pos ⟨hhz, hlate⟩]
  rw [hwait]
  exact ⟨rfl, fun e he => scheduleFrom_nil_inactive (pricesOf d now) e he, rfl⟩

/-- C2 witness: with departure at 10:00 but known prices ending at 04:00 and
ample time left, the concrete plan is a fully inactive waiting plan. -/
theorem claim_C2_witness :
    (generate_charging_plan { baseData with departure_time := some 600 } cfgW
      false 30 0).should_charge_now = false ∧
    (∀ e ∈ (generate_charging_plan { baseData with departure_time := some 600 } cfgW
      false 30 0).charging_schedule, e.active = false) ∧
    (generate_charging_plan { baseData with departure_time := some 600 } cfgW
      false 30 0).scheduled_start = none :=
  claim_C2_deferred { baseData with departure_time := some 600 } cfgW false 30 0 rfl
    (by decide) ⟨0, 60, 2⟩ [⟨60, 120, 2⟩, ⟨120, 180, 0⟩, ⟨180, 240, 2⟩] (by decide)
    (by decide) (by decide)
    (by norm_num [hoursNeededCalc, finalTargetOf, resolveTarget, resolveCurrentSoc,
      horizonCoversOf, horizonCovers, pricesOf, buildPrices, parse_price_list,
      parseFrom, maxEnd, get_departure_time, get_calendar_data, minPriceOf,
      baseData, cfgW, min_def, max_def])

/-- C6: with current SoC at or above the resolved target (maintenance
mode), the selected slots are exactly the window slots priced at or below
`price_limit_2`, and `should_charge_now` is true iff the car is plugged in
and the slot covering `now` is among them (windows with well-formed,
pairwise-distinct slot starts). -/
theorem claim_C6_maintenance (d : GenData) (cfg : ConfigSettings) (mo : Bool)
    (now : Int) (ov : Rat) (hsw : d.smart_switch = true) (ht : d.price_today ≠ [])
    (w0 : PriceSlot) (ws : List PriceSlot) (hw : calcWindowOf d now = w0 :: ws)
    (hm : finalTargetOf d mo now w0 ws ≤ resolveCurrentSoc d.car_soc)
    (hdist : (w0 :: ws).Pairwise (fun a b => a.start ≠ b.start)) :
    (∀ s ∈ w0 :: ws,
      (s.start ∈ ((w0 :: ws).filter fun x =>
          decide (x.price ≤ d.price_limit_2.getD (3/2))).map (·.start) ↔
        s.price ≤ d.price_limit_2.getD (3/2))) ∧
    ((generate_charging_plan d cfg mo now ov).should_charge_now = true ↔
      (d.car_plugged = true ∧ ∃ s ∈ w0 :: ws,
        s.price ≤ d.price_limit_2.getD (3/2) ∧ s.start ≤ now ∧ now < s.stop)) := by
  have hsel : ∀ s ∈ w0 :: ws,
      (s.start ∈ ((w0 :: ws).filter fun x =>
          decide (x.price ≤ d.price_limit_2.getD (3/2))).map (·.start) ↔
        s.price ≤ d.price_limit_2.getD (3/2)) := by
    intro s hs
    constructor
    · intro hmem
      obtain ⟨x, hx, hxs⟩ := List.mem_map.mp hmem
      obtain ⟨hxw, hxp⟩ := List.mem_filter.mp hx
      have hxp' : x.price ≤ d.price_limit_2.getD (3/2) := of_decide_eq_true hxp
      by_cases hx_eq : s = x
      · rw [hx_eq]
        exact hxp'
      · exact absurd hxs.symm
          (hdist.forall (fun a b h => h.symm) hs hxw hx_eq)
    · intro hp
      exact List.mem_map.mpr ⟨s, List.mem_filter.mpr ⟨hs, decide_eq_true hp⟩, rfl⟩
  refine ⟨hsel, ?_⟩
  rw [gcp_eq_mainPlan d cfg mo now ov hsw ht w0 ws hw]
  rw [mainPlan_eq_maintenance d cfg mo now ov w0 ws hm]
  have hcov : coversNowSelected (w0 :: ws)
      (((w0 :: ws).filter fun x =>
        decide (x.price ≤ d.price_limit_2.getD (3/2))).map (·.start)) now = true ↔
      ∃ s ∈ w0 :: ws, s.price ≤ d.price_limit_2.getD (3/2) ∧
        s.start ≤ now ∧ now < s.stop := by
    unfold coversNowSelected
    rw [List.any_eq_true]
    constructor
    · rintro ⟨s, hs, hb⟩
      simp only [Bool.and_eq_true, decide_eq_true_eq] at hb
      exact ⟨s, hs, (hsel s hs).mp hb.1.1, hb.1.2, hb.2⟩
    · rintro ⟨s, hs, h1, h2, h3⟩
      refine ⟨s, hs, ?_⟩
      simp only [Bool.and_eq_true, decide_eq_true_eq]
      exact ⟨⟨(hsel s hs).mpr h1, h2⟩, h3⟩
  show (coversNowSelected (w0 :: ws) _ now && d.car_plugged) = true ↔ _
  rw [Bool.and_eq_true, hcov]
  exact ⟨fun ⟨a, b⟩ => ⟨b, a⟩, fun ⟨a, b⟩ => ⟨b, a⟩⟩

/-- C6 witness: the maintenance iff evaluated on the concrete input with
SoC 100%. -/
theorem claim_C6_witness :
    (∀ s ∈ [(⟨0, 60, 2⟩ : PriceSlot), ⟨60, 120, 2⟩, ⟨120, 180, 0⟩, ⟨180, 240, 2⟩],
      (s.start ∈ ([(⟨0, 60, 2⟩ : PriceSlot), ⟨60, 120, 2⟩, ⟨120, 180, 0⟩,
          ⟨180, 240, 2⟩].filter fun x =>
          decide (x.price ≤ ({ baseData with car_soc := some 100 } :
            GenData).price_limit_2.getD (3/2))).map (·.start) ↔
        s.price ≤ ({ baseData with car_soc := some 100 } :
          GenData).price_limit_2.getD (3/2))) ∧
    ((generate_charging_plan { baseData with car_soc := some 100 } cfgW
        false 30 0).should_charge_now = true ↔
      (({ baseData with car_soc := some 100 } : GenData).car_plugged = true ∧
        ∃ s ∈ [(⟨0, 60, 2⟩ : PriceSlot), ⟨60, 120, 2⟩, ⟨120, 180, 0⟩, ⟨180, 240, 2⟩],
          s.price ≤ ({ baseData with car_soc := some 100 } :
            GenData).price_limit_2.getD (3/2) ∧ s.start ≤ 30 ∧ 30 < s.stop)) :=
  claim_C6_maintenance { baseData with car_soc := some 100 } cfgW false 30 0 rfl
    (by decide) ⟨0, 60, 2⟩ [⟨60, 120, 2⟩, ⟨120, 180, 0⟩, ⟨180, 240, 2⟩] (by decide)
    (by norm_num [finalTargetOf, resolveTarget, resolveCurrentSoc, horizonCoversOf,
      horizonCovers, pricesOf, buildPrices, parse_price_list, parseFrom, maxEnd,
      get_departure_time, get_calendar_data, minPriceOf, baseData, cfgW,
      min_def, max_def])
    (by decide)

lemma slotDurationHours_pos (w0 : PriceSlot) : 0 < slotDurationHours w0 := by
  simp only [slotDurationHours]
  split_ifs with h
  · norm_num
  · exact not_le.mp h

lemma hoursNeededCalc_nonneg (cfg : ConfigSettings) (x : Rat) (hx : 0 ≤ x)
    (hcap : 0 ≤ cfg.car_capacity) (hloss : cfg.charger_loss ≤ 100)
    (hmf : 0 ≤ cfg.max_fuse) : 0 ≤ hoursNeededCalc cfg x := by
  unfold hoursNeededCalc
  have h1 : (0 : Rat) ≤ x / 100 * cfg.car_capacity :=
    mul_nonneg (div_nonneg hx (by norm_num)) hcap
  have h2 : (0 : Rat) ≤ 1 - cfg.charger_loss / 100 := by linarith
  have h3 : (0 : Rat) ≤ min (3 * 230 * cfg.max_fuse / 1000) 11 :=
    le_min (div_nonneg (by linarith) (by norm_num)) (by norm_num)
  exact div_nonneg (div_nonneg h1 h2) h3

lemma extraSlotsNeeded_eq (ov : Rat) (len : Nat) (hov : 0 ≤ ov) :
    extraSlotsNeeded ov len = ⌈ov / (if 25 < len then (15 : Rat) else 60)⌉ := by
  unfold extraSlotsNeeded
  by_cases h : 0 < ov
  · rw [if_pos h]
  · rw [if_neg h]
    have h0 : ov = 0 := le_antisymm (not_lt.mp h) hov
    rw [h0, zero_div, Int.ceil_zero]

lemma extraSlotsNeeded_nonneg (ov : Rat) (len : Nat) (hov : 0 ≤ ov) :
    0 ≤ extraSlotsNeeded ov len := by
  unfold extraSlotsNeeded
  by_cases h : 0 < ov
  · rw [if_pos h]
    refine Int.ceil_nonneg (div_nonneg hov ?_)
    by_cases hl : 25 < len
    · rw [if_pos hl]
      norm_num
    · rw [if_neg hl]
      norm_num
  · rw [if_neg h]

/-- C1 amended: in the charging branch, the selector computes
`slots_needed = ceil(hours_needed/slot_hours) + ceil(overload_min/slot_min)`,
the selection is the `slots_needed`-prefix of the stable price sort of the
window — `min(slots_needed, window length)` slots, so exactly `slots_needed`
when the window is long enough and the whole window otherwise — each priced
at or below every unselected one, and `should_charge_now` holds iff the
slot covering `now` is among the selected set. -/
theorem claim_C1_slot_selection (d : GenData) (cfg : ConfigSettings) (mo : Bool)
    (now : Int) (ov : Rat) (hsw : d.smart_switch = true) (ht : d.price_today ≠ [])
    (w0 : PriceSlot) (ws : List PriceSlot) (hw : calcWindowOf d now = w0 :: ws)
    (hplug : d.car_plugged = true)
    (hcur : resolveCurrentSoc d.car_soc < finalTargetOf d mo now w0 ws)
    (hnodefer : ¬(horizonCoversOf d now = false ∧
      (now : Rat) < (get_departure_time d now : Rat) -
        (hoursNeededCalc cfg (finalTargetOf d mo now w0 ws -
          resolveCurrentSoc d.car_soc) + ov / 60) * 60))
    (hov : 0 ≤ ov) (hcap : 0 ≤ cfg.car_capacity) (hloss : cfg.charger_loss ≤ 100)
    (hmf : 0 ≤ cfg.max_fuse) :
    slotsNeededOf d cfg mo now ov w0 ws =
      ⌈hoursNeededCalc cfg (finalTargetOf d mo now w0 ws -
        resolveCurrentSoc d.car_soc) / slotDurationHours w0⌉ +
      ⌈ov / (if 25 < d.price_today.length then (15 : Rat) else 60)⌉ ∧
    selectCheapest (w0 :: ws) (slotsNeededOf d cfg mo now ov w0 ws) =
      ((w0 :: ws).mergeSort fun a b => a.price ≤ b.price).take
        (slotsNeededOf d cfg mo now ov w0 ws).toNat ∧
    (((w0 :: ws).mergeSort fun a b => a.price ≤ b.price).take
        (slotsNeededOf d cfg mo now ov w0 ws).toNat).length =
      min (slotsNeededOf d cfg mo now ov w0 ws).toNat (w0 :: ws).length ∧
    (∀ s ∈ ((w0 :: ws).mergeSort fun a b => a.price ≤ b.price).take
        (slotsNeededOf d cfg mo now ov w0 ws).toNat,
      ∀ t ∈ ((w0 :: ws).mergeSort fun a b => a.price ≤ b.price).drop
        (slotsNeededOf d cfg mo now ov w0 ws).toNat, s.price ≤ t.price) ∧
    ((generate_charging_plan d cfg mo now ov).should_charge_now = true ↔
      ∃ s ∈ w0 :: ws,
        s.start ∈ (((w0 :: ws).mergeSort fun a b => a.price ≤ b.price).take
          (slotsNeededOf d cfg mo now ov w0 ws).toNat).map (·.start) ∧
        s.start ≤ now ∧ now < s.stop) := by
  have hn_nonneg : 0 ≤ slotsNeededOf d cfg mo now ov w0 ws := by
    unfold slotsNeededOf
    have h1 : 0 ≤ ⌈hoursNeededCalc cfg (finalTargetOf d mo now w0 ws -
        resolveCurrentSoc d.car_soc) / slotDurationHours w0⌉ :=
      Int.ceil_nonneg (div_nonneg
        (hoursNeededCalc_nonneg cfg _ (sub_nonneg.mpr (le_of_lt hcur)) hcap hloss hmf)
        (le_of_lt (slotDurationHours_pos w0)))
    exact add_nonneg h1 (extraSlotsNeeded_nonneg ov d.price_today.length hov)
  have hsel2 : selectCheapest (w0 :: ws) (slotsNeededOf d cfg mo now ov w0 ws) =
      ((w0 :: ws).mergeSort fun a b => a.price ≤ b.price).take
        (slotsNeededOf d cfg mo now ov w0 ws).toNat := by
    unfold selectCheapest pySlice
    rw [if_pos hn_nonneg]
  have htrans : ∀ a b c : PriceSlot, decide (a.price ≤ b.price) = true →
      decide (b.price ≤ c.price) = true → decide (a.price ≤ c.price) = true := by
    intro a b c h1 h2
    simp only [decide_eq_true_eq] at h1 h2 ⊢
    exact le_trans h1 h2
  have htotal : ∀ a b : PriceSlot,
      (decide (a.price ≤ b.price) || decide (b.price ≤ a.price)) = true := by
    intro a b
    simp [le_total]
  refine ⟨?_, hsel2, ?_, ?_, ?_⟩
  · unfold slotsNeededOf
    rw [extraSlotsNeeded_eq ov d.price_today.length hov]
  · rw [List.length_take, List.length_mergeSort]
  · intro s hs t ht'
    have hps := List.sorted_mergeSort htrans htotal (w0 :: ws)
    rw [← List.take_append_drop (slotsNeededOf d cfg mo now ov w0 ws).toNat
      ((w0 :: ws).mergeSort fun a b => a.price ≤ b.price)] at hps
    exact of_decide_eq_true ((List.pairwise_append.mp hps).2.2 s hs t ht')
  · rw [gcp_eq_mainPlan d cfg mo now ov hsw ht w0 ws hw]
    rw [mainPlan_eq_charging d cfg mo now ov w0 ws hcur]
    have hred : chargingBranch d cfg now ov (plan2Of d mo now ov w0 ws)
        (pricesOf d now) (get_departure_time d now) (horizonCoversOf d now) w0 ws
        (finalTargetOf d mo now w0 ws) (resolveCurrentSoc d.car_soc) =
        finishPlan d cfg now (plan2Of d mo now ov w0 ws) (pricesOf d now) (w0 :: ws)
          ((selectCheapest (w0 :: ws) (slotsNeededOf d cfg mo now ov w0 ws)).map (·.start))
          (maxEnd (selectCheapest (w0 :: ws) (slotsNeededOf d cfg mo now ov w0 ws)))
          (coversNowSelected (w0 :: ws)
            ((selectCheapest (w0 :: ws) (slotsNeededOf d cfg mo now ov w0 ws)).map (·.start))
            now) := by
      simp only [chargingBranch]
      rw [if_neg hnodefer]
      rfl
    rw [hred]
    show (coversNowSelected (w0 :: ws) _ now && d.car_plugged) = true ↔ _
    rw [hplug, Bool.and_true]
    unfold coversNowSelected
    rw [List.any_eq_true, hsel2]
    constructor
    · rintro ⟨s, hs, hb⟩
      simp only [Bool.and_eq_true, decide_eq_true_eq] at hb
      exact ⟨s, hs, hb.1.1, hb.1.2, hb.2⟩
    · rintro ⟨s, hs, h1, h2, h3⟩
      refine ⟨s, hs, ?_⟩
      simp only [Bool.and_eq_true, decide_eq_true_eq]
      exact ⟨⟨h1, h2⟩, h3⟩

/-- C1 witness: the slots-needed formula evaluated on the concrete planner
input (target 100%, SoC 30%, one-hour slots). -/
theorem claim_C1_witness :
    slotsNeededOf baseData cfgW false 30 0 ⟨0, 60, 2⟩
        [⟨60, 120, 2⟩, ⟨120, 180, 0⟩, ⟨180, 240, 2⟩] =
      ⌈hoursNeededCalc cfgW (finalTargetOf baseData false 30 ⟨0, 60, 2⟩
          [⟨60, 120, 2⟩, ⟨120, 180, 0⟩, ⟨180, 240, 2⟩] -
        resolveCurrentSoc baseData.car_soc) / slotDurationHours ⟨0, 60, 2⟩⌉ +
      ⌈(0 : Rat) / (if 25 < baseData.price_today.length then (15 : Rat) else 60)⌉ :=
  (claim_C1_slot_selection baseData cfgW false 30 0 rfl (by decide)
    ⟨0, 60, 2⟩ [⟨60, 120, 2⟩, ⟨120, 180, 0⟩, ⟨180, 240, 2⟩] (by decide) rfl
    (by norm_num [finalTargetOf, resolveTarget, resolveCurrentSoc, horizonCoversOf,
      horizonCovers, pricesOf, buildPrices, parse_price_list, parseFrom, maxEnd,
      get_departure_time, get_calendar_data, minPriceOf, baseData, cfgW,
      min_def, max_def])
    (fun h => absurd h.1 (by decide))
    (by norm_num) (by norm_num [cfgW]) (by norm_num [cfgW]) (by norm_num [cfgW])).1

/-- C1 counterexample: a routine short-window run falsifies the original
"selects exactly that many cheapest slots".  With the concrete input
(plugged, smart charging on, horizon covering departure, SoC 30% below the
resolved target 100%) and a 110 kWh battery, the selector wants
`slots_needed = 7` slots but the calculation window holds only 4, and
`sorted_window[:slots_needed]` selects all 4 of them — fewer than
`slots_needed`. -/
theorem claim_C1_counterexample :
    baseData.car_plugged = true ∧
    baseData.smart_switch = true ∧
    calcWindowOf baseData 30 =
      [(⟨0, 60, 2⟩ : PriceSlot), ⟨60, 120, 2⟩, ⟨120, 180, 0⟩, ⟨180, 240, 2⟩] ∧
    horizonCoversOf baseData 30 = true ∧
    resolveCurrentSoc baseData.car_soc <
      finalTargetOf baseData false 30 ⟨0, 60, 2⟩
        [⟨60, 120, 2⟩, ⟨120, 180, 0⟩, ⟨180, 240, 2⟩] ∧
    slotsNeededOf baseData ⟨110, 0, 20⟩ false 30 0 ⟨0, 60, 2⟩
      [⟨60, 120, 2⟩, ⟨120, 180, 0⟩, ⟨180, 240, 2⟩] = 7 ∧
    (selectCheapest [(⟨0, 60, 2⟩ : PriceSlot), ⟨60, 120, 2⟩, ⟨120, 180, 0⟩,
        ⟨180, 240, 2⟩]
      (slotsNeededOf baseData ⟨110, 0, 20⟩ false 30 0 ⟨0, 60, 2⟩
        [⟨60, 120, 2⟩, ⟨120, 180, 0⟩, ⟨180, 240, 2⟩])).length = 4 ∧
    (4 : Nat) ≠ 7 := by
  have h7 : slotsNeededOf baseData ⟨110, 0, 20⟩ false 30 0 ⟨0, 60, 2⟩
      [⟨60, 120, 2⟩, ⟨120, 180, 0⟩, ⟨180, 240, 2⟩] = 7 := by
    norm_num [slotsNeededOf, hoursNeededCalc, extraSlotsNeeded,
      slotDurationHours, finalTargetOf, resolveTarget, resolveCurrentSoc,
      horizonCoversOf, horizonCovers, pricesOf, buildPrices, parse_price_list,
      parseFrom, maxEnd, get_departure_time, get_calendar_data, minPriceOf,
      baseData, min_def, max_def]
  refine ⟨rfl, rfl, by decide, by decide, ?_, h7, ?_, by decide⟩
  · norm_num [finalTargetOf, resolveTarget, resolveCurrentSoc, horizonCoversOf,
      horizonCovers, pricesOf, buildPrices, parse_price_list, parseFrom, maxEnd,
      get_departure_time, get_calendar_data, minPriceOf, baseData,
      min_def, max_def]
  · rw [h7]
    unfold selectCheapest pySlice
    rw [if_pos (by norm_num : (0 : Int) ≤ 7)]
    rw [List.length_take, List.length_mergeSort]
    rfl

end EV
